import Mathlib

/-!
Verification of the AWG waveform binary codec and SCPI block-transfer framing
(src/instruments/awg.py). Bytes are modelled as natural numbers below 256;
Python integers are modelled as `Int` (`x & (2 ^ k - 1)` on arbitrary Python
ints is `x mod 2 ^ k`, and `x << n` is `x * 2 ^ n`); `struct.pack` range checks
are modelled with `Option` (`none` is a raised `struct.error`). Float32
amplitudes are represented by their 32-bit IEEE-754 bit patterns: packing and
unpacking a float is the identity on the bit pattern, which is exactly the
"equal to float32 precision" notion used below.
-/

namespace Awg

/-- The four little-endian bytes of a 32-bit pattern (`struct.pack("f", x)`
viewed on the bit pattern of `x`). -/
def pack4LE (bits : Nat) : List Nat :=
  [bits % 256, bits / 256 % 256, bits / 65536 % 256, bits / 16777216 % 256]

/-- Rebuilding a 32-bit pattern from its four little-endian bytes
(`struct.unpack("f", ...)` on the bit pattern). -/
def unpack4LE (b0 b1 b2 b3 : Nat) : Nat :=
  b0 + 256 * (b1 + 256 * (b2 + 256 * b3))

/-- Modelled from the spec: the routine `numerical.awg_pack_real_data` (C++
behind SWIG, absent from src) called by `writeRealData` (awg.py:116). Per spec
sections 4.1 and 6, each sample is emitted as the 4 little-endian bytes of the
float32 amplitude followed by the single marker byte it is handed. -/
def awg_pack_real_data : List Nat → List Nat → List Nat
  | v :: vs, m :: ms => pack4LE v ++ m :: awg_pack_real_data vs ms
  | _, _ => []

/-- `writeRealData` (awg.py:100-118): stores `markers << 6` into a numpy
`uint8` array (a cast that reduces mod 256) and packs amplitudes with markers,
five bytes per sample. Amplitudes are float32 bit patterns. -/
def writeRealData (values markers : List Nat) : List Nat :=
  awg_pack_real_data values (markers.map fun m => m * 64 % 256)

/-- `readRealData` (awg.py:328-339): for each of the first `len(data)/5`
(integer division) five-byte groups, unpack a float from the first four bytes
and take the fifth byte, unshifted, as the marker. -/
def readRealData : List Nat → List Nat × List Nat
  | b0 :: b1 :: b2 :: b3 :: b4 :: rest =>
      (unpack4LE b0 b1 b2 b3 :: (readRealData rest).1, b4 :: (readRealData rest).2)
  | _ => ([], [])

/-- The 16-bit word packed per INT sample (awg.py:305):
`((marker & 3) << 14) + ((value & 0xFF) << 6)`. -/
def intWord (m v : Int) : Int :=
  m % 4 * 16384 + v % 256 * 64

/-- `struct.pack("H", w)`: two little-endian bytes; raises `struct.error`
(modelled as `none`) unless `0 <= w <= 65535`. -/
def packUInt16 (w : Int) : Option (List Nat) :=
  if 0 ≤ w ∧ w < 65536 then some [w.toNat % 256, w.toNat / 256] else none

/-- `writeIntData` (awg.py:297-306): loops over `range(len(values))`, packing
one 16-bit word per sample; indexing past the end of `markers` is an
`IndexError`, modelled as `none`. -/
def writeIntData : List Int → List Int → Option (List Nat)
  | [], _ => some []
  | v :: vs, m :: ms =>
      match packUInt16 (intWord m v), writeIntData vs ms with
      | some w, some rest => some (w ++ rest)
      | _, _ => none
  | _ :: _, [] => none

/-- `readIntData` (awg.py:341-352): for each of the first `len(data)/2`
two-byte words, `value = (word >> 6) & 0xFF` and `marker = word >> 14`. -/
def readIntData : List Nat → List Int × List Int
  | x :: y :: rest =>
      (Int.ofNat ((x + 256 * y) / 64 % 256) :: (readIntData rest).1,
       Int.ofNat ((x + 256 * y) / 16384) :: (readIntData rest).2)
  | _ => ([], [])

/-- `struct.pack("B", b)`: one byte; raises `struct.error` (modelled as
`none`) unless `0 <= b <= 255`. -/
def packUInt8 (b : Int) : Option Nat :=
  if 0 ≤ b ∧ b < 256 then some b.toNat else none

/-- `writeMarkers` (awg.py:308-316): one byte `marker << 6` per marker, with
no masking before the pack. -/
def writeMarkers : List Int → Option (List Nat)
  | [] => some []
  | m :: ms =>
      match packUInt8 (m * 64), writeMarkers ms with
      | some b, some rest => some (b :: rest)
      | _, _ => none

/-- `readMarkers` (awg.py:318-326): each byte's marker is `byte >> 6`. -/
def readMarkers (data : List Nat) : List Int :=
  data.map fun b => Int.ofNat (b / 64)

/-- Decimal digit bytes of `n`, most significant first: the model of Python's
`"%d" % n` used by the block header (awg.py:382, awg.py:391). -/
def decDigits (n : Nat) : List Nat :=
  if h : n < 10 then [48 + n]
  else decDigits (n / 10) ++ [48 + n % 10]
decreasing_by exact Nat.div_lt_self (by omega) (by omega)

/-- The SCPI block header built at awg.py:382 and awg.py:391:
`"#%d%d" % (len("%d" % L), L)` — a `#`, the decimal digit-count of `L`
(itself printed in decimal, with however many digits that takes), then the
decimal digits of `L`. -/
def blockHeader (L : Nat) : List Nat :=
  35 :: (decDigits (decDigits L).length ++ decDigits L)

/-- The framed payload sent by `createWaveform` / `updateMarkers`:
header followed by the raw payload bytes. -/
def buildFrame (data : List Nat) : List Nat :=
  blockHeader data.length ++ data

/-- Python `re` whitespace class `\s` over byte strings. -/
def isSpaceByte (b : Nat) : Bool :=
  b = 32 || b = 9 || b = 10 || b = 13 || b = 11 || b = 12

/-- ASCII decimal digit test, Python `re` class `\d` over byte strings. -/
def isDigitByte (b : Nat) : Bool :=
  decide (48 ≤ b) && decide (b ≤ 57)

/-- The header strip in `getWaveform` (awg.py:410-412):
`re.match("\s*#\d+\s*", data)` followed by `data = m.string[m.end(0):]`.
The greedy `\d+` consumes every consecutive digit byte after `#` (and the
trailing `\s*` every following whitespace byte); a failed match leaves
`m = None`, so `m.string` raises `AttributeError`, modelled as `none`. -/
def stripBlockHeader (s : List Nat) : Option (List Nat) :=
  match s.dropWhile isSpaceByte with
  | 35 :: rest =>
      match rest with
      | d :: _ =>
          if isDigitByte d then
            some ((rest.dropWhile isDigitByte).dropWhile isSpaceByte)
          else none
      | [] => none
  | _ => none

/-- The `Waveform` record populated by `getWaveform` (awg.py:22-30, 413-424).
Amplitude entries are stored as integers (float32 bit patterns for REAL
waveforms). -/
structure Waveform where
  mk ::
  wname : String
  wdata : List Int
  wmarkers : List Int
  wlength : Nat
  rawdata : List Nat
  wavetype : String
deriving DecidableEq

/-- The errors a fetch can surface: `attributeError` is the crash on a failed
header regex (awg.py:412), `unboundLocal` the crash on reading the
never-assigned `values` when the announced type is neither `REAL` nor `INT`
(awg.py:421), and `unknownEncoding` is the typed error the spec names, which
no code path produces. -/
inductive AwgError where
  | attributeError
  | unboundLocal
  | unknownEncoding
deriving DecidableEq

/-- `getWaveform` (awg.py:403-425) as a function of the two instrument
responses: the block-data reply and the announced waveform type. -/
def getWaveform (name : String) (dataResp : List Nat) (wavetypeResp : String) :
    Except AwgError Waveform :=
  match stripBlockHeader dataResp with
  | none => Except.error AwgError.attributeError
  | some data =>
      if wavetypeResp = "REAL" then
        Except.ok (Waveform.mk name ((readRealData data).1.map Int.ofNat)
          ((readRealData data).2.map Int.ofNat) (data.length / 5) data wavetypeResp)
      else if wavetypeResp = "INT" then
        Except.ok (Waveform.mk name (readIntData data).1
          (readIntData data).2 (data.length / 2) data wavetypeResp)
      else Except.error AwgError.unboundLocal

/-- The complete sequence of `ask` queries `getWaveform` issues, on every
path: both are sent before the type dispatch (awg.py:408-409) and no branch
issues another. -/
def getWaveformAsks (name : String) : List String :=
  ["WLIST:WAVEFORM:DATA? \"" ++ name ++ "\"",
   "WLIST:WAVEFORM:TYPe? \"" ++ name ++ "\""]

/-- `getWaveforms` (awg.py:440-455) as a function of the per-name fetch
outcomes: each success is appended to the result, each failure is caught by
the bare `except`, printed, and otherwise discarded. -/
def getWaveforms : List (Except AwgError Waveform) → List Waveform
  | [] => []
  | Except.ok w :: rest => w :: getWaveforms rest
  | Except.error _ :: rest => getWaveforms rest

/-- A concrete waveform used in batch-fetch examples. -/
def sampleWaveform : Waveform :=
  Waveform.mk "a" [] [] 0 [] "INT"

end Awg

deriving instance DecidableEq for Except

namespace Awg

lemma writeInt_read : ∀ vs ms : List Int, vs.length = ms.length →
    ∃ bs, writeIntData vs ms = some bs ∧
      readIntData bs = (vs.map fun v => v % 256, ms.map fun m => m % 4)
  | [], [], _ => ⟨[], rfl, by simp [readIntData]⟩
  | v :: vs, m :: ms, h => by
      obtain ⟨bs, hw, hr⟩ := writeInt_read vs ms (by simpa using h)
      have hm0 : 0 ≤ m % 4 := Int.emod_nonneg m (by norm_num)
      have hm1 : m % 4 < 4 := Int.emod_lt_of_pos m (by norm_num)
      have hv0 : 0 ≤ v % 256 := Int.emod_nonneg v (by norm_num)
      have hv1 : v % 256 < 256 := Int.emod_lt_of_pos v (by norm_num)
      have hw0 : 0 ≤ intWord m v := by unfold intWord; omega
      have hw1 : intWord m v < 65536 := by unfold intWord; omega
      have hpack : packUInt16 (intWord m v) =
          some [(intWord m v).toNat % 256, (intWord m v).toNat / 256] := by
        unfold packUInt16
        rw [if_pos ⟨hw0, hw1⟩]
      refine ⟨(intWord m v).toNat % 256 :: (intWord m v).toNat / 256 :: bs, ?_, ?_⟩
      · simp [writeIntData, hpack, hw]
      · have hword : (intWord m v).toNat % 256 + 256 * ((intWord m v).toNat / 256) =
            (intWord m v).toNat := Nat.mod_add_div _ _
        simp only [readIntData, hr, List.map_cons, Prod.mk.injEq, List.cons.injEq,
          Int.ofNat_eq_coe, and_true, true_and]
        refine ⟨?_, ?_⟩
        · rw [hword]; unfold intWord; omega
        · rw [hword]; unfold intWord; omega

lemma map_self_int (f : Int → Int) : ∀ l : List Int, (∀ x ∈ l, f x = x) → l.map f = l
  | [], _ => rfl
  | a :: l, h => by
      rw [List.map_cons, h a (by simp), map_self_int f l (fun x hx => h x (by simp [hx]))]

lemma markersRoundtrip : ∀ ms : List Int, (∀ m ∈ ms, 0 ≤ m ∧ m ≤ 3) →
    ∃ bs, writeMarkers ms = some bs ∧ bs.length = ms.length ∧ readMarkers bs = ms
  | [], _ => by exact ⟨[], rfl, rfl, rfl⟩
  | m :: ms, h => by
      obtain ⟨hm, hm3⟩ := h m (by simp)
      obtain ⟨bs, hw, hl, hr⟩ := markersRoundtrip ms (fun x hx => h x (by simp [hx]))
      have hp : packUInt8 (m * 64) = some (m * 64).toNat := by
        unfold packUInt8
        rw [if_pos ⟨by omega, by omega⟩]
      refine ⟨(m * 64).toNat :: bs, ?_, ?_, ?_⟩
      · simp only [writeMarkers, hp, hw]
      · simp [hl]
      · simp only [readMarkers, List.map_cons, Int.ofNat_eq_coe] at hr ⊢
        have h1 : (((m * 64).toNat / 64 : Nat) : Int) = m := by omega
        rw [h1, hr]

lemma writeMarkers_none : ∀ ms : List Int, (∃ m ∈ ms, m < 0 ∨ 3 < m) → writeMarkers ms = none
  | m :: ms, h => by
      rcases h with ⟨x, hx, hbad⟩
      rcases List.mem_cons.mp hx with rfl | hx
      · have hp : packUInt8 (x * 64) = none := by
          unfold packUInt8
          rw [if_neg (by omega)]
        cases hrest : writeMarkers ms <;> simp [writeMarkers, hp, hrest]
      · have hrest := writeMarkers_none ms ⟨x, hx, hbad⟩
        cases hp : packUInt8 (m * 64) <;> simp [writeMarkers, hp, hrest]

/-- C1: the claim asserts that decoding the bytes produced by the REAL encoder
returns markers exactly equal to the originals. It fails: the encoder stores
`marker << 6` in the fifth byte of each sample and `readRealData` returns that
byte unshifted, so marker 1 round-trips to 64 (amplitude bit patterns do
round-trip). -/
theorem c1_real_roundtrip_marker_bug :
    readRealData (writeRealData [1065353216] [1]) = ([1065353216], [64]) ∧ (64 : Nat) ≠ 1 := by
  decide

/-- C2: for amplitudes in [0,255] and markers in [0,3], the INT codec
round-trips exactly: `readIntData (writeIntData values markers)` succeeds and
returns the original values and markers. -/
theorem c2_int_roundtrip (vs ms : List Int) (hlen : vs.length = ms.length)
    (hv : ∀ v ∈ vs, 0 ≤ v ∧ v ≤ 255) (hm : ∀ m ∈ ms, 0 ≤ m ∧ m ≤ 3) :
    ∃ bs, writeIntData vs ms = some bs ∧ readIntData bs = (vs, ms) := by
  obtain ⟨bs, hw, hr⟩ := writeInt_read vs ms hlen
  refine ⟨bs, hw, ?_⟩
  rw [hr]
  have h1 : vs.map (fun v => v % 256) = vs :=
    map_self_int _ vs fun v hv2 =>
      Int.emod_eq_of_lt (hv v hv2).1 (by have := (hv v hv2).2; omega)
  have h2 : ms.map (fun m => m % 4) = ms :=
    map_self_int _ ms fun m hm2 =>
      Int.emod_eq_of_lt (hm m hm2).1 (by have := (hm m hm2).2; omega)
  rw [h1, h2]

/-- C2 witness: the round-trip at values [7, 255], markers [3, 0]. -/
theorem c2_int_roundtrip_witness :
    ([7, 255] : List Int).length = ([3, 0] : List Int).length ∧
    (∀ v ∈ ([7, 255] : List Int), 0 ≤ v ∧ v ≤ 255) ∧
    (∀ m ∈ ([3, 0] : List Int), 0 ≤ m ∧ m ≤ 3) ∧
    ∃ bs, writeIntData [7, 255] [3, 0] = some bs ∧ readIntData bs = ([7, 255], [3, 0]) :=
  ⟨by decide, by decide, by decide,
   c2_int_roundtrip [7, 255] [3, 0] (by decide) (by decide) (by decide)⟩

/-- C9: the INT encoder masks rather than rejects: for arbitrary (even
negative or out-of-range) integer values and markers of equal length, the
write succeeds and the round-trip yields `value mod 256` and `marker mod 4`
per sample. -/
theorem c9_int_masks (vs ms : List Int) (hlen : vs.length = ms.length) :
    ∃ bs, writeIntData vs ms = some bs ∧
      readIntData bs = (vs.map fun v => v % 256, ms.map fun m => m % 4) :=
  writeInt_read vs ms hlen

/-- C9 witness: values [300, -1] and markers [5, -2] encode without error and
come back as [44, 255] and [1, 2]. -/
theorem c9_int_masks_witness :
    ([300, -1] : List Int).length = ([5, -2] : List Int).length ∧
    ∃ bs, writeIntData [300, -1] [5, -2] = some bs ∧
      readIntData bs = (([300, -1] : List Int).map fun v => v % 256,
        ([5, -2] : List Int).map fun m => m % 4) :=
  ⟨by decide, c9_int_masks [300, -1] [5, -2] (by decide)⟩

/-- C7: the marker-only codec round-trips exactly for markers in [0,3]: the
encoder emits one byte `marker << 6` per marker and the decoder recovers each
marker as `byte >> 6`. -/
theorem c7_markers_roundtrip (ms : List Int) (h : ∀ m ∈ ms, 0 ≤ m ∧ m ≤ 3) :
    ∃ bs, writeMarkers ms = some bs ∧ bs.length = ms.length ∧ readMarkers bs = ms :=
  markersRoundtrip ms h

/-- C7 witness: the round-trip at markers [0, 1, 2, 3]. -/
theorem c7_markers_roundtrip_witness :
    (∀ m ∈ ([0, 1, 2, 3] : List Int), 0 ≤ m ∧ m ≤ 3) ∧
    ∃ bs, writeMarkers [0, 1, 2, 3] = some bs ∧ bs.length = 4 ∧
      readMarkers bs = [0, 1, 2, 3] :=
  ⟨by decide, c7_markers_roundtrip [0, 1, 2, 3] (by decide)⟩

/-- C10: `writeMarkers` does not mask its input: it succeeds with one byte
per marker when every marker is in [0,3], and raises a pack error (the byte
`marker << 6` falls outside [0,255]) as soon as some marker is outside
[0,3]. -/
theorem c10_markers_unmasked (ms : List Int) :
    ((∀ m ∈ ms, 0 ≤ m ∧ m ≤ 3) →
      ∃ bs, writeMarkers ms = some bs ∧ bs.length = ms.length) ∧
    ((∃ m ∈ ms, m < 0 ∨ 3 < m) → writeMarkers ms = none) := by
  constructor
  · intro h
    obtain ⟨bs, hw, hl, _⟩ := markersRoundtrip ms h
    exact ⟨bs, hw, hl⟩
  · exact writeMarkers_none ms

/-- C10 witness: markers [0, 1, 2, 3] pack into 4 bytes, while markers [4]
and [-1] both raise. -/
theorem c10_markers_unmasked_witness :
    (∃ bs, writeMarkers [0, 1, 2, 3] = some bs ∧ bs.length = 4) ∧
    writeMarkers [4] = none ∧ writeMarkers [-1] = none :=
  ⟨(c10_markers_unmasked [0, 1, 2, 3]).1 (by decide),
   (c10_markers_unmasked [4]).2 (by decide),
   (c10_markers_unmasked [-1]).2 (by decide)⟩

lemma readRealData_len1 : ∀ data : List Nat, (readRealData data).1.length = data.length / 5
  | [] => by simp [readRealData]
  | [_] => by simp [readRealData]
  | [_, _] => by simp [readRealData]
  | [_, _, _] => by simp [readRealData]
  | [_, _, _, _] => by simp [readRealData]
  | _ :: _ :: _ :: _ :: _ :: rest => by
      have ih := readRealData_len1 rest
      simp only [readRealData, List.length_cons, ih]
      omega

lemma readRealData_len2 : ∀ data : List Nat, (readRealData data).2.length = data.length / 5
  | [] => by simp [readRealData]
  | [_] => by simp [readRealData]
  | [_, _] => by simp [readRealData]
  | [_, _, _] => by simp [readRealData]
  | [_, _, _, _] => by simp [readRealData]
  | _ :: _ :: _ :: _ :: _ :: rest => by
      have ih := readRealData_len2 rest
      simp only [readRealData, List.length_cons, ih]
      omega

lemma readRealData_take :
    ∀ data : List Nat, readRealData (data.take (data.length / 5 * 5)) = readRealData data
  | [] => by simp [readRealData]
  | [_] => by simp [readRealData]
  | [_, _] => by simp [readRealData]
  | [_, _, _] => by simp [readRealData]
  | [_, _, _, _] => by simp [readRealData]
  | a :: b :: c :: d :: e :: rest => by
      have ih := readRealData_take rest
      have h5 : (a :: b :: c :: d :: e :: rest).length / 5 * 5 =
          rest.length / 5 * 5 + 1 + 1 + 1 + 1 + 1 := by
        simp only [List.length_cons]
        omega
      rw [h5]
      simp only [List.take_succ_cons]
      simp only [readRealData, ih]

lemma readIntData_len1 : ∀ data : List Nat, (readIntData data).1.length = data.length / 2
  | [] => by simp [readIntData]
  | [_] => by simp [readIntData]
  | _ :: _ :: rest => by
      have ih := readIntData_len1 rest
      simp only [readIntData, List.length_cons, ih]
      omega

lemma readIntData_len2 : ∀ data : List Nat, (readIntData data).2.length = data.length / 2
  | [] => by simp [readIntData]
  | [_] => by simp [readIntData]
  | _ :: _ :: rest => by
      have ih := readIntData_len2 rest
      simp only [readIntData, List.length_cons, ih]
      omega

lemma readIntData_take :
    ∀ data : List Nat, readIntData (data.take (data.length / 2 * 2)) = readIntData data
  | [] => by simp [readIntData]
  | [_] => by simp [readIntData]
  | x :: y :: rest => by
      have ih := readIntData_take rest
      have h2 : (x :: y :: rest).length / 2 * 2 = rest.length / 2 * 2 + 1 + 1 := by
        simp only [List.length_cons]
        omega
      rw [h2]
      simp only [List.take_succ_cons]
      simp only [readIntData, ih]

lemma decDigits_length_pos (n : Nat) : 1 ≤ (decDigits n).length := by
  rw [decDigits]
  split <;> simp

lemma decDigits_len_ge : ∀ k n : Nat, 10 ^ k ≤ n → k + 1 ≤ (decDigits n).length := by
  intro k
  induction k with
  | zero =>
      intro n _
      exact decDigits_length_pos n
  | succ k ih =>
      intro n h
      have hten : (10 : Nat) ≤ 10 ^ (k + 1) := Nat.le_self_pow (by omega) 10
      have hn : ¬ n < 10 := by omega
      rw [decDigits, dif_neg hn, List.length_append]
      have hdiv : 10 ^ k ≤ n / 10 := by
        rw [Nat.le_div_iff_mul_le (by norm_num)]
        calc 10 ^ k * 10 = 10 ^ (k + 1) := (pow_succ 10 k).symm
          _ ≤ n := h
      have := ih (n / 10) hdiv
      simp only [List.length_cons, List.length_nil]
      omega

/-- C3: the claim asserts that parsing the frame built from any payload
returns exactly that payload. It fails: `createWaveform` frames the one-byte
payload `"1"` as `"#111"`, and the greedy header regex in `getWaveform`
consumes all four bytes, returning the empty payload. -/
theorem c3_frame_parse_bug :
    stripBlockHeader (buildFrame [49]) = some [] ∧ ([] : List Nat) ≠ [49] := by
  have h : buildFrame [49] = [35, 49, 49, 49] := by
    simp [buildFrame, blockHeader, decDigits]
  rw [h]
  exact ⟨by decide, by decide⟩

/-- C4 counterexample: the claim asserts a `MalformedPayload` failure on
payloads whose length is not a multiple of the sample width; instead both
decoders succeed on a 7-byte payload, silently dropping the trailing bytes
(7 = 5 + 2 leftover for REAL, 3 words + 1 leftover byte for INT). -/
theorem c4_decoder_truncates_cx :
    readRealData [0, 0, 0, 0, 0, 0, 0] = ([0], [0]) ∧
    readIntData [0, 0, 0, 0, 0, 0, 0] = ([0, 0, 0], [0, 0, 0]) := by
  decide

/-- C4 amended: the decoders are total and never report an error; on a
payload of length L they decode exactly the first `L / width` complete
samples (width 5 for REAL, 2 for INT) and ignore the trailing
`L mod width` bytes. -/
theorem c4_decoder_truncates (data : List Nat) :
    (readRealData data).1.length = data.length / 5 ∧
    (readRealData data).2.length = data.length / 5 ∧
    readRealData (data.take (data.length / 5 * 5)) = readRealData data ∧
    (readIntData data).1.length = data.length / 2 ∧
    (readIntData data).2.length = data.length / 2 ∧
    readIntData (data.take (data.length / 2 * 2)) = readIntData data :=
  ⟨readRealData_len1 data, readRealData_len2 data, readRealData_take data,
   readIntData_len1 data, readIntData_len2 data, readIntData_take data⟩

lemma blockHeader_at_pow9 :
    blockHeader (10 ^ 9) = [35, 49, 48, 49, 48, 48, 48, 48, 48, 48, 48, 48, 48] := by
  simp [blockHeader, decDigits]

/-- C5 counterexample: the claim asserts that framing a payload of length
10^9 fails with `PayloadTooLarge`; instead the builder emits the frame
whose header is `#` `10` `1000000000` — a digit-count field of two digits —
and no error. -/
theorem c5_build_no_size_check_cx :
    buildFrame (List.replicate (10 ^ 9) 0) =
      [35, 49, 48, 49, 48, 48, 48, 48, 48, 48, 48, 48, 48] ++ List.replicate (10 ^ 9) 0 := by
  rw [buildFrame, List.length_replicate, blockHeader_at_pow9]

/-- C5 amended: the block-frame builder never fails: for every payload, also
one whose length takes 10 or more decimal digits, it emits `#` followed by
the decimal digit-count of the length, then the length digits, then the
payload; when the length is at least 10^9 the digit-count field itself has
two or more digits instead of triggering any error. -/
theorem c5_build_no_size_check (data : List Nat) (h : 10 ^ 9 ≤ data.length) :
    buildFrame data =
      35 :: (decDigits (decDigits data.length).length ++ (decDigits data.length ++ data)) ∧
    2 ≤ (decDigits (decDigits data.length).length).length := by
  constructor
  · simp [buildFrame, blockHeader, List.append_assoc]
  · have h1 : 10 ≤ (decDigits data.length).length := by
      have := decDigits_len_ge 9 data.length h
      omega
    have h2 := decDigits_len_ge 1 (decDigits data.length).length (by simpa using h1)
    omega

/-- C5 witness: the amended statement at a payload of length exactly 10^9. -/
theorem c5_build_no_size_check_witness :
    10 ^ 9 ≤ (List.replicate (10 ^ 9) (0 : Nat)).length ∧
    (buildFrame (List.replicate (10 ^ 9) (0 : Nat)) =
        35 :: (decDigits (decDigits (List.replicate (10 ^ 9) (0 : Nat)).length).length ++
          (decDigits (List.replicate (10 ^ 9) (0 : Nat)).length ++
            List.replicate (10 ^ 9) (0 : Nat))) ∧
      2 ≤ (decDigits (decDigits (List.replicate (10 ^ 9) (0 : Nat)).length).length).length) :=
  ⟨by rw [List.length_replicate],
   c5_build_no_size_check (List.replicate (10 ^ 9) 0) (by rw [List.length_replicate])⟩

/-- C6 counterexample: on an instrument announcing type `"BOGUS"`,
`getWaveform` fails with the unbound-local crash of awg.py:421, which is not
the typed `UnknownEncoding` error the claim names (no code path produces
one). -/
theorem c6_unknown_type_cx :
    getWaveform "w" [35, 49, 48] "BOGUS" = Except.error AwgError.unboundLocal ∧
    (Except.error AwgError.unboundLocal : Except AwgError Waveform) ≠
      Except.error AwgError.unknownEncoding := by
  decide

/-- C6 amended: when the announced waveform type is neither `REAL` nor `INT`
(and the block reply parses), `getWaveform` fails — with the untyped
unbound-local crash, not a typed `UnknownEncoding` — and it performs no
further reads: the only two `ask` queries it ever issues are both sent
before the type dispatch. -/
theorem c6_unknown_type_unbound (name : String) (dataResp : List Nat) (wavetypeResp : String)
    (hdata : (stripBlockHeader dataResp).isSome = true)
    (hreal : wavetypeResp ≠ "REAL") (hintd : wavetypeResp ≠ "INT") :
    getWaveform name dataResp wavetypeResp = Except.error AwgError.unboundLocal ∧
    (getWaveformAsks name).length = 2 := by
  constructor
  · rcases hsome : stripBlockHeader dataResp with _ | d
    · rw [hsome] at hdata
      simp at hdata
    · simp [getWaveform, hsome, hreal, hintd]
  · rfl

/-- C6 witness: the amended statement at name `"w"`, block reply `"#10"`
and announced type `"BOGUS"`. -/
theorem c6_unknown_type_unbound_witness :
    (stripBlockHeader [35, 49, 48]).isSome = true ∧
    ("BOGUS" ≠ "REAL") ∧ ("BOGUS" ≠ "INT") ∧
    (getWaveform "w" [35, 49, 48] "BOGUS" = Except.error AwgError.unboundLocal ∧
      (getWaveformAsks "w").length = 2) :=
  ⟨by decide, by decide, by decide,
   c6_unknown_type_unbound "w" [35, 49, 48] "BOGUS" (by decide) (by decide) (by decide)⟩

lemma getWaveforms_skip_error :
    ∀ (rs1 rs2 : List (Except AwgError Waveform)) (e : AwgError),
      getWaveforms (rs1 ++ Except.error e :: rs2) = getWaveforms rs1 ++ getWaveforms rs2
  | [], _, _ => rfl
  | Except.ok w :: rs1, rs2, e =>
      congrArg (fun l => w :: l) (getWaveforms_skip_error rs1 rs2 e)
  | Except.error _ :: rs1, rs2, e => getWaveforms_skip_error rs1 rs2 e

/-- C8 counterexample: the claim asserts that a failed waveform's error is
attached to that waveform's slot in the result; instead, in a two-waveform
batch whose first fetch fails, the result is the single successful waveform —
the failed slot is silently dropped and nothing in the result reports it. -/
theorem c8_batch_drop_cx :
    getWaveforms [Except.error AwgError.unboundLocal, Except.ok sampleWaveform] =
      [sampleWaveform] ∧
    (getWaveforms [Except.error AwgError.unboundLocal, Except.ok sampleWaveform]).length = 1 := by
  decide

/-- C8 amended: a failure fetching one waveform does not abort the batch —
the orchestrator continues with the remaining waveforms — but the failed
waveform is swallowed by the bare `except` (only printed), so the result is
exactly the successful waveforms in order, with no per-slot error record. -/
theorem c8_batch_continues (rs1 rs2 : List (Except AwgError Waveform)) (e : AwgError) :
    getWaveforms (rs1 ++ Except.error e :: rs2) = getWaveforms rs1 ++ getWaveforms rs2 :=
  getWaveforms_skip_error rs1 rs2 e

end Awg
